import Mathlib

/-!
Verification of the evaluation engine of the AgentOps benchmark suite
(`src/runner.py`), shallowly embedded in Lean 4.

Python strings are modelled as `List Char`; Python's `json.loads` is
modelled by a fuel-based recursive-descent parser `loads`; fallible
Python code (the gate loop, which can raise a `TypeError` on the
`f not in response_json` membership test) is modelled with
`Except Unit`.
-/

/-- Python strings, modelled as lists of characters. -/
abbrev Str := List Char

/-- Character list of a Lean string literal. -/
def strOf (s : String) : Str := s.data

/-- Model of Python `str.lower()` (ASCII case folding). -/
def lowerStr (s : Str) : Str := s.map Char.toLower

/-- Model of Python `needle in hay` substring containment on `str`. -/
def containsSub (needle : Str) : Str → Bool
  | [] => needle.isEmpty
  | c :: cs => needle.isPrefixOf (c :: cs) || containsSub needle cs

/-- Split a string at the first occurrence of `pat`, returning the parts
before and after it.  This models the leftmost-match behaviour of
`re.search` for a literal pattern. -/
def splitFirst (pat : Str) : Str → Option (Str × Str)
  | [] => if pat.isEmpty then some ([], []) else none
  | c :: cs =>
    if pat.isPrefixOf (c :: cs) then some ([], (c :: cs).drop pat.length)
    else (splitFirst pat cs).map (fun p => (c :: p.1, p.2))

/-- Whitespace characters stripped by Python `str.strip()` (ASCII part). -/
def isPySpace (c : Char) : Bool :=
  c = ' ' || c = '\t' || c = '\n' || c = '\r' || c = '\x0b' || c = '\x0c'

/-- Model of Python `str.strip()`. -/
def pyStrip (s : Str) : Str :=
  ((s.dropWhile isPySpace).reverse.dropWhile isPySpace).reverse

/-- Value of a string of decimal digits, as Python `int(...)` computes it. -/
def natOfDigits (ds : Str) : Nat :=
  ds.foldl (fun n c => 10 * n + (c.toNat - '0'.toNat)) 0

/-- Python `repr` of a plain string (as it appears when a list of strings
is interpolated into an f-string); simplified to the single-quote form. -/
def pyReprStr (s : Str) : Str := Char.ofNat 39 :: (s ++ [Char.ofNat 39])

/-- Python `repr` of a list of strings, as produced by interpolating the
list into an f-string, e.g. `['a.txt', 'b.txt']`. -/
def pyReprList (l : List Str) : Str :=
  '[' :: (List.intercalate (strOf ", ") (l.map pyReprStr) ++ [']'])

/-- Split a string into its lines at newline characters (used only to
state the spec-side fenced-block pattern of claim C2). -/
def splitLines (s : Str) : List Str :=
  s.foldr
    (fun c acc =>
      if c = '\n' then [] :: acc
      else
        match acc with
        | a :: rest => (c :: a) :: rest
        | [] => [[c]])
    [[]]

/-! ## JSON values and a model of Python `json.loads` -/

/-- JSON values.  Numbers keep their raw token: the evaluation engine
never uses a numeric value, only the shape of the parsed document. -/
inductive JsonVal where
  | obj (fields : List (Str × JsonVal))
  | arr (elems : List JsonVal)
  | jstr (s : Str)
  | num (raw : Str)
  | jbool (b : Bool)
  | jnull

/-- JSON inter-token whitespace accepted by Python's `json` module. -/
def isJsonWs (c : Char) : Bool :=
  c = ' ' || c = '\t' || c = '\n' || c = '\r'

def skipWs (s : Str) : Str := s.dropWhile isJsonWs

def hexVal (c : Char) : Option Nat :=
  if '0' ≤ c ∧ c ≤ '9' then some (c.toNat - '0'.toNat)
  else if 'a' ≤ c ∧ c ≤ 'f' then some (c.toNat - 'a'.toNat + 10)
  else if 'A' ≤ c ∧ c ≤ 'F' then some (c.toNat - 'A'.toNat + 10)
  else none

def consStrResult (c : Char) (r : Option (Str × Str)) : Option (Str × Str) :=
  r.map (fun p => (c :: p.1, p.2))

/-- Parse the body of a JSON string after the opening quote, handling the
escapes `json.loads` accepts and rejecting unescaped control characters
(strict mode). -/
def parseStringBody : Str → Option (Str × Str)
  | [] => none
  | '"' :: rest => some ([], rest)
  | '\\' :: '"' :: rest => consStrResult '"' (parseStringBody rest)
  | '\\' :: '\\' :: rest => consStrResult '\\' (parseStringBody rest)
  | '\\' :: '/' :: rest => consStrResult '/' (parseStringBody rest)
  | '\\' :: 'b' :: rest => consStrResult (Char.ofNat 8) (parseStringBody rest)
  | '\\' :: 'f' :: rest => consStrResult (Char.ofNat 12) (parseStringBody rest)
  | '\\' :: 'n' :: rest => consStrResult '\n' (parseStringBody rest)
  | '\\' :: 'r' :: rest => consStrResult '\r' (parseStringBody rest)
  | '\\' :: 't' :: rest => consStrResult '\t' (parseStringBody rest)
  | '\\' :: 'u' :: h1 :: h2 :: h3 :: h4 :: rest =>
    match hexVal h1, hexVal h2, hexVal h3, hexVal h4 with
    | some a, some b, some c, some d =>
      consStrResult (Char.ofNat (((a * 16 + b) * 16 + c) * 16 + d)) (parseStringBody rest)
    | _, _, _, _ => none
  | '\\' :: _ => none
  | c :: rest => if c.toNat < 32 then none else consStrResult c (parseStringBody rest)

def isDig (c : Char) : Bool := '0' ≤ c && c ≤ '9'

def spanDigits (s : Str) : Str × Str := (s.takeWhile isDig, s.dropWhile isDig)

/-- Integer part of the JSON number grammar: `0` or `[1-9][0-9]*`. -/
def parseIntPart : Str → Option (Str × Str)
  | '0' :: rest => some (['0'], rest)
  | c :: rest =>
    if '1' ≤ c && c ≤ '9' then
      let p := spanDigits rest
      some (c :: p.1, p.2)
    else none
  | [] => none

/-- Optional fraction part `\.[0-9]+` (left unconsumed when absent, as the
number regex of the Python scanner does). -/
def parseFrac (s : Str) : Str × Str :=
  match s with
  | '.' :: rest =>
    let p := spanDigits rest
    if p.1.isEmpty then ([], s) else ('.' :: p.1, p.2)
  | _ => ([], s)

/-- Optional exponent part `[eE][+-]?[0-9]+`. -/
def parseExp (s : Str) : Str × Str :=
  match s with
  | c :: rest =>
    if c = 'e' || c = 'E' then
      let sgn : Str × Str :=
        match rest with
        | '+' :: r => (['+'], r)
        | '-' :: r => (['-'], r)
        | _ => ([], rest)
      let p := spanDigits sgn.2
      if p.1.isEmpty then ([], s) else (c :: (sgn.1 ++ p.1), p.2)
    else ([], s)
  | [] => ([], s)

/-- A JSON number token (sign, integer, fraction, exponent). -/
def parseNumberTok (s : Str) : Option (Str × Str) :=
  let neg : Str × Str :=
    match s with
    | '-' :: r => (['-'], r)
    | _ => ([], s)
  match parseIntPart neg.2 with
  | none => none
  | some (ip, s2) =>
    let fp := parseFrac s2
    let ep := parseExp fp.2
    some (neg.1 ++ ip ++ fp.1 ++ ep.1, ep.2)

mutual

/-- One JSON value, preceded by optional whitespace. -/
def parseVal : Nat → Str → Option (JsonVal × Str)
  | 0, _ => none
  | Nat.succ fuel, s =>
    match skipWs s with
    | '{' :: rest =>
      match skipWs rest with
      | '}' :: r2 => some (JsonVal.obj [], r2)
      | _ => (parseMembers fuel rest).map (fun p => (JsonVal.obj p.1, p.2))
    | '[' :: rest =>
      match skipWs rest with
      | ']' :: r2 => some (JsonVal.arr [], r2)
      | _ => (parseElems fuel rest).map (fun p => (JsonVal.arr p.1, p.2))
    | '"' :: rest => (parseStringBody rest).map (fun p => (JsonVal.jstr p.1, p.2))
    | 'n' :: 'u' :: 'l' :: 'l' :: rest => some (JsonVal.jnull, rest)
    | 't' :: 'r' :: 'u' :: 'e' :: rest => some (JsonVal.jbool true, rest)
    | 'f' :: 'a' :: 'l' :: 's' :: 'e' :: rest => some (JsonVal.jbool false, rest)
    | 'N' :: 'a' :: 'N' :: rest => some (JsonVal.num (strOf "NaN"), rest)
    | 'I' :: 'n' :: 'f' :: 'i' :: 'n' :: 'i' :: 't' :: 'y' :: rest =>
      some (JsonVal.num (strOf "Infinity"), rest)
    | '-' :: 'I' :: 'n' :: 'f' :: 'i' :: 'n' :: 'i' :: 't' :: 'y' :: rest =>
      some (JsonVal.num (strOf "-Infinity"), rest)
    | s' => (parseNumberTok s').map (fun p => (JsonVal.num p.1, p.2))

/-- One or more `"key": value` members of an object, ending at `}`. -/
def parseMembers : Nat → Str → Option (List (Str × JsonVal) × Str)
  | 0, _ => none
  | Nat.succ fuel, s =>
    match skipWs s with
    | '"' :: r1 =>
      match parseStringBody r1 with
      | none => none
      | some (key, r2) =>
        match skipWs r2 with
        | ':' :: r3 =>
          match parseVal fuel r3 with
          | none => none
          | some (v, r4) =>
            match skipWs r4 with
            | ',' :: r5 => (parseMembers fuel r5).map (fun p => ((key, v) :: p.1, p.2))
            | '}' :: r5 => some ([(key, v)], r5)
            | _ => none
        | _ => none
    | _ => none

/-- One or more array elements, ending at `]`. -/
def parseElems : Nat → Str → Option (List JsonVal × Str)
  | 0, _ => none
  | Nat.succ fuel, s =>
    match parseVal fuel s with
    | none => none
    | some (v, r1) =>
      match skipWs r1 with
      | ',' :: r2 => (parseElems fuel r2).map (fun p => (v :: p.1, p.2))
      | ']' :: r2 => some ([v], r2)
      | _ => none

end

/-- Model of Python `json.loads`: parse one document and require that only
whitespace follows it ("Extra data" otherwise). `none` models a raised
`JSONDecodeError`. -/
def loads (s : Str) : Option JsonVal :=
  match parseVal (2 * s.length + 2) s with
  | some (v, rest) => if (skipWs rest).isEmpty then some v else none
  | none => none

/-! ## The embedded-JSON extractor of `evaluate_hard_gates` -/

/-- The literal matched before the group in `re.search(r"```json\n(.*?)\n```", response, re.DOTALL)`. -/
def fenceOpen : Str := strOf "```json\n"

/-- The literal matched after the group. -/
def fenceClose : Str := strOf "\n```"

/-- The leftmost, shortest match of the fence regex: the content strictly
between the first occurrence of `` ```json\n `` and the first following
`` \n``` ``. -/
def reSearchFence (s : Str) : Option Str :=
  match splitFirst fenceOpen s with
  | none => none
  | some (_, rest) =>
    match splitFirst fenceClose rest with
    | none => none
    | some (inner, _) => some inner

/-- The JSON-extraction helper of `evaluate_hard_gates` (runner.py lines
170-186): try the whole response, then a fenced block; every parse
failure degrades to `({}, false)`. -/
def extract_json (s : Str) : JsonVal × Bool :=
  match loads s with
  | some v => (v, true)
  | none =>
    match reSearchFence s with
    | some inner =>
      match loads inner with
      | some v => (v, true)
      | none => (JsonVal.obj [], false)
    | none => (JsonVal.obj [], false)

/-! ## Gates, normalization and the hard-gate evaluator -/

/-- The `type` field of a gate dictionary.  The source dispatches on
string equality; every unrecognized string is a no-op, modelled by
`other`. -/
inductive GateType where
  | json_schema_validate
  | crm_contact_match
  | crm_deal_match
  | crm_field_check
  | crm_numeric_reference_check
  | regex_all
  | regex_any
  | field_equals
  | forbidden_terms
  | citation_check
  | other (raw : Str)
deriving DecidableEq

/-- The seven gate types the source treats uniformly as generic
containment (runner.py line 207). -/
def isContainmentType : GateType → Bool
  | GateType.crm_contact_match => true
  | GateType.crm_deal_match => true
  | GateType.crm_field_check => true
  | GateType.crm_numeric_reference_check => true
  | GateType.regex_all => true
  | GateType.regex_any => true
  | GateType.field_equals => true
  | _ => false

/-- A parameter value: a scalar (already coerced to its `str()` form, as
the source does with `str(v)`) or a list of scalars. -/
inductive PVal where
  | scalar (v : Str)
  | list (vs : List Str)
deriving DecidableEq

/-- The `params` dictionary of a gate: the seven containment keys
(absent keys are `none`, matching `params.get(key)` returning `None`),
plus `terms`, `required_fields` and `must_include_any_of`, whose absent
default in the source is the empty list (`params.get(..., [])`). -/
structure Params where
  expected_account_id : Option PVal
  expected_contact_id : Option PVal
  expected_email : Option PVal
  expected_deal_id : Option PVal
  expected_value : Option PVal
  expected : Option PVal
  patterns : Option PVal
  terms : List Str
  required_fields : List Str
  must_include_any_of : List Str
deriving DecidableEq

/-- A params dictionary with no recognized keys. -/
def emptyParams : Params := ⟨none, none, none, none, none, none, none, [], [], []⟩

/-- One canonical gate record. -/
structure Gate where
  type : GateType
  name : Str
  params : Params
deriving DecidableEq

/-- The `hard_gates` field of `eval_rules`: either the legacy V1 dict
shape (each list present iff its key is present) or the canonical V2
list of gates; an absent `hard_gates` field is `canonical []`
(`rules.get("hard_gates", [])`). -/
inductive HardGates where
  | legacy (must_contain : Option (List Str)) (forbidden_terms : Option (List Str))
  | canonical (gates : List Gate)

/-- The V1 compatibility patch (runner.py lines 151-165): a legacy dict
contributes one `crm_contact_match` gate per present `must_contain` key
and one `forbidden_terms` gate per present `forbidden_terms` key, in
that order; a canonical list passes through. -/
def normalizeGates : HardGates → List Gate
  | HardGates.canonical gs => gs
  | HardGates.legacy mc ft =>
    (match mc with
     | some l =>
       [⟨GateType.crm_contact_match, strOf "legacy_must_contain",
         ⟨none, none, none, none, none, some (PVal.list l), none, [], [], []⟩⟩]
     | none => []) ++
    (match ft with
     | some l =>
       [⟨GateType.forbidden_terms, strOf "legacy_forbidden",
         ⟨none, none, none, none, none, none, none, l, [], []⟩⟩]
     | none => [])

/-- The running `score` dict of the gate loop. -/
structure Score where
  passed : Bool
  failed_reasons : List Str
deriving DecidableEq

/-- Targets collected from the seven containment keys, in the key order
of the source (runner.py lines 209-213). -/
def pvalToStrings : Option PVal → List Str
  | none => []
  | some (PVal.scalar v) => [v]
  | some (PVal.list vs) => vs

def collectTargets (p : Params) : List Str :=
  pvalToStrings p.expected_account_id ++ pvalToStrings p.expected_contact_id ++
  pvalToStrings p.expected_email ++ pvalToStrings p.expected_deal_id ++
  pvalToStrings p.expected_value ++ pvalToStrings p.expected ++
  pvalToStrings p.patterns

/-- Python `f in j` for a parsed JSON document `j`: key membership for
objects, element equality for arrays, substring for strings; raises
`TypeError` (`none`) for numbers, booleans and `null`. -/
def jsonHasKey (j : JsonVal) (f : Str) : Option Bool :=
  match j with
  | JsonVal.obj fields => some (fields.any (fun kv => kv.1 == f))
  | JsonVal.arr elems =>
    some (elems.any (fun e =>
      match e with
      | JsonVal.jstr s => s == f
      | _ => false))
  | JsonVal.jstr s => some (containsSub f s)
  | _ => none

/-- The comprehension `[f for f in params.get("required_fields", []) if f
not in response_json]`; the membership test can raise. -/
def missingFields (j : JsonVal) : List Str → Except Unit (List Str)
  | [] => Except.ok []
  | f :: fs =>
    match jsonHasKey j f with
    | none => Except.error ()
    | some b =>
      match missingFields j fs with
      | Except.error e => Except.error e
      | Except.ok rest => Except.ok (if b then rest else f :: rest)

/-- One iteration of the gate loop (runner.py lines 189-233), updating
the running score; `Except.error` models an uncaught exception. -/
def processGate (response : Str) (rjson : JsonVal) (jvalid : Bool)
    (score : Score) (gate : Gate) : Except Unit Score :=
  if gate.type = GateType.json_schema_validate then
    if jvalid = false then
      Except.ok ⟨false, score.failed_reasons ++
        [gate.name ++ strOf ": Output was not valid JSON."]⟩
    else
      (missingFields rjson gate.params.required_fields).map (fun missing =>
        if missing.isEmpty then score
        else
          ⟨false, score.failed_reasons ++
            [gate.name ++ strOf ": Missing keys " ++ pyReprList missing]⟩)
  else if isContainmentType gate.type then
    Except.ok ((collectTargets gate.params).foldl
      (fun sc t =>
        if containsSub (lowerStr t) (lowerStr response) then sc
        else ⟨false, sc.failed_reasons ++
          [gate.name ++ strOf ": Missing \x27" ++ t ++ strOf "\x27"]⟩)
      score)
  else if gate.type = GateType.forbidden_terms then
    Except.ok (gate.params.terms.foldl
      (fun sc t =>
        if containsSub (lowerStr t) (lowerStr response) then
          ⟨false, sc.failed_reasons ++
            [gate.name ++ strOf ": Forbidden term \x27" ++ t ++ strOf "\x27 found"]⟩
        else sc)
      score)
  else if gate.type = GateType.citation_check then
    if gate.params.must_include_any_of.any (fun f => containsSub f response) then
      Except.ok score
    else
      Except.ok ⟨false, score.failed_reasons ++
        [gate.name ++ strOf ": No citation from " ++
          pyReprList gate.params.must_include_any_of]⟩
  else Except.ok score

/-- The gate loop: thread the score through the gates, propagating a
raised exception. -/
def runGates (response : Str) (rjson : JsonVal) (jvalid : Bool) :
    Score → List Gate → Except Unit Score
  | sc, [] => Except.ok sc
  | sc, g :: gs =>
    match processGate response rjson jvalid sc g with
    | Except.error e => Except.error e
    | Except.ok sc' => runGates response rjson jvalid sc' gs

/-- Model of `BenchmarkRunner.evaluate_hard_gates` (runner.py lines 126-235):
normalize the rules, extract embedded JSON once, then run every gate
starting from `passed = True`, no reasons. -/
def evaluate_hard_gates (response : Str) (rules : HardGates) : Except Unit Score :=
  runGates response (extract_json response).1 (extract_json response).2
    ⟨true, []⟩ (normalizeGates rules)

/-! ## The quality-score adapter `grade_quality` -/

/-- The grading prompt built by `grade_quality` (runner.py lines 108-117). -/
def buildJudgePrompt (task_input agent_response rubric : Str) : Str :=
  strOf "You are a strict Teacher grading an AI Agent\x27s homework.\n" ++
  strOf "Original Task: " ++ task_input ++ strOf "\n" ++
  strOf "Grading Rubric: " ++ rubric ++ strOf "\n" ++
  strOf "--------------------------------------------------\n" ++
  strOf "Agent Response:\n" ++ agent_response ++ strOf "\n" ++
  strOf "--------------------------------------------------\n" ++
  strOf "Grade this response from 1 to 5 based strictly on the rubric.\n" ++
  strOf "Return ONLY the number (e.g., 4)."

/-- Model of `BenchmarkRunner.grade_quality` (runner.py lines 96-124).  The judge
collaborator is an external function from the prompt to either a reply
string or a raised exception (`Except.error ()`); the whole body is
wrapped in `try/except` with fallback 3, and `int('')` on a digit-free
reply raises `ValueError`, landing in the same fallback. -/
def grade_quality (task_input agent_response rubric : Str)
    (judge : Str → Except Unit Str) : Nat :=
  match judge (buildJudgePrompt task_input agent_response rubric) with
  | Except.error _ => 3
  | Except.ok reply =>
    let digits := (pyStrip reply).filter Char.isDigit
    if digits.isEmpty then 3 else natOfDigits digits

/-! ## Spec-side definitions used to state the claims -/

/-- Modelled from the spec's words (claim C1): the integer value of the
first maximal run of digit characters in a reply. -/
def specFirstDigitRun (s : Str) : Nat :=
  natOfDigits ((s.dropWhile (fun c => !c.isDigit)).takeWhile Char.isDigit)

/-- Modelled from the spec's words (claim C2): the response contains a
line consisting exactly of `` ```json ``, followed (strictly later) by a
line consisting exactly of `` ``` ``. -/
def claimFenceLinePattern (s : Str) : Bool :=
  let lines := splitLines s
  (List.range lines.length).any (fun i =>
    (List.range lines.length).any (fun j =>
      decide (i < j) &&
      (lines.getD i [] == strOf "```json") &&
      (lines.getD j [] == strOf "```")))

/-- The pattern `pat` occurs in `s` exactly at offset `a.length` and at no earlier
offset (the leftmost occurrence, as `re.search` finds for a literal). -/
def FirstOccurAt (pat s a b : Str) : Prop :=
  s = a ++ pat ++ b ∧ ∀ i, i < a.length → ¬ pat <+: s.drop i

/-! ## Helper lemmas -/

theorem containsSub_iff_substring (n : Str) : ∀ h : Str, containsSub n h = true ↔ n <:+: h := by
  intro h
  induction h with
  | nil =>
    simp only [containsSub, List.isEmpty_iff, List.infix_nil]
  | cons c cs ih =>
    simp only [containsSub, Bool.or_eq_true, ih, List.isPrefixOf_iff_prefix]
    exact (List.infix_cons_iff).symm

theorem splitFirst_some_decomp (pat : Str) :
    ∀ (s a b : Str), splitFirst pat s = some (a, b) → s = a ++ pat ++ b := by
  intro s
  induction s with
  | nil =>
    intro a b h
    simp only [splitFirst] at h
    by_cases hp : pat.isEmpty = true
    · rw [if_pos hp] at h
      obtain ⟨ha, hb⟩ := Prod.mk.injEq .. ▸ Option.some.inj h
      subst ha; subst hb
      simp [List.isEmpty_iff.mp hp]
    · rw [if_neg hp] at h
      exact absurd h (by simp)
  | cons c cs ih =>
    intro a b h
    simp only [splitFirst] at h
    by_cases hp : pat.isPrefixOf (c :: cs) = true
    · rw [if_pos hp] at h
      obtain ⟨ha, hb⟩ := Prod.mk.injEq .. ▸ Option.some.inj h
      obtain ⟨t, ht⟩ := List.isPrefixOf_iff_prefix.mp hp
      subst ha
      rw [← hb, ← ht, List.nil_append, List.drop_left]
    · rw [if_neg hp] at h
      cases hsf : splitFirst pat cs with
      | none => rw [hsf] at h; exact absurd h (by simp)
      | some p =>
        rw [hsf, Option.map_some'] at h
        obtain ⟨ha, hb⟩ := Prod.mk.injEq .. ▸ Option.some.inj h
        have hd := ih p.1 p.2 (by rw [hsf])
        subst hb
        rw [← ha, hd]
        simp

theorem splitFirst_some_min (pat : Str) :
    ∀ (s a b : Str), splitFirst pat s = some (a, b) →
      ∀ i, i < a.length → ¬ pat <+: s.drop i := by
  intro s
  induction s with
  | nil =>
    intro a b h i hi
    simp only [splitFirst] at h
    by_cases hp : pat.isEmpty = true
    · rw [if_pos hp] at h
      obtain ⟨ha, _⟩ := Prod.mk.injEq .. ▸ Option.some.inj h
      rw [← ha] at hi
      exact absurd hi (by simp)
    · rw [if_neg hp] at h
      exact absurd h (by simp)
  | cons c cs ih =>
    intro a b h i hi
    simp only [splitFirst] at h
    by_cases hp : pat.isPrefixOf (c :: cs) = true
    · rw [if_pos hp] at h
      obtain ⟨ha, _⟩ := Prod.mk.injEq .. ▸ Option.some.inj h
      rw [← ha] at hi
      exact absurd hi (by simp)
    · rw [if_neg hp] at h
      cases hsf : splitFirst pat cs with
      | none => rw [hsf] at h; exact absurd h (by simp)
      | some p =>
        rw [hsf, Option.map_some'] at h
        obtain ⟨ha, _⟩ := Prod.mk.injEq .. ▸ Option.some.inj h
        cases i with
        | zero =>
          intro hpre
          exact hp (List.isPrefixOf_iff_prefix.mpr hpre)
        | succ i' =>
          rw [List.drop_succ_cons]
          apply ih p.1 p.2 (by rw [hsf])
          rw [← ha] at hi
          simpa using hi

theorem splitFirst_isSome_of_decomp (pat : Str) :
    ∀ (a b : Str), (splitFirst pat (a ++ pat ++ b)).isSome = true := by
  intro a
  induction a with
  | nil =>
    intro b
    rw [List.nil_append]
    cases hpb : pat ++ b with
    | nil =>
      obtain ⟨hp, _⟩ := List.append_eq_nil.mp hpb
      subst hp
      simp [splitFirst]
    | cons c cs =>
      have hpre : pat.isPrefixOf (c :: cs) = true := by
        rw [← hpb]
        exact List.isPrefixOf_iff_prefix.mpr ⟨b, rfl⟩
      simp [splitFirst, hpre]
  | cons x a' ih =>
    intro b
    show (splitFirst pat (x :: (a' ++ pat ++ b))).isSome = true
    simp only [splitFirst]
    split
    · simp
    · have := ih b
      cases hsf : splitFirst pat (a' ++ pat ++ b) with
      | none => rw [hsf] at this; exact absurd this (by simp)
      | some p => simp

theorem splitFirst_of_firstOccur (pat s a b : Str) (h : FirstOccurAt pat s a b) :
    splitFirst pat s = some (a, b) := by
  obtain ⟨hdec, hmin⟩ := h
  have hsome := splitFirst_isSome_of_decomp pat a b
  rw [← hdec] at hsome
  cases hsf : splitFirst pat s with
  | none => rw [hsf] at hsome; exact absurd hsome (by simp)
  | some p =>
    have hdec' := splitFirst_some_decomp pat s p.1 p.2 (by rw [hsf])
    have hmin' := splitFirst_some_min pat s p.1 p.2 (by rw [hsf])
    have hlen : a.length = p.1.length := by
      rcases Nat.lt_trichotomy a.length p.1.length with hlt | heq | hgt
      · exfalso
        apply hmin' a.length hlt
        rw [hdec, List.append_assoc, List.drop_left]
        exact ⟨b, rfl⟩
      · exact heq
      · exfalso
        apply hmin p.1.length hgt
        rw [hdec', List.append_assoc, List.drop_left]
        exact ⟨p.2, rfl⟩
    have hs : a ++ (pat ++ b) = p.1 ++ (pat ++ p.2) := by
      rw [← List.append_assoc, ← List.append_assoc, ← hdec, ← hdec']
    obtain ⟨ha, hrest⟩ := List.append_inj hs hlen
    have hb : b = p.2 := List.append_cancel_left hrest
    rw [ha, hb]

theorem splitFirst_none_of_no_decomp (pat s : Str) (h : ∀ a b, s ≠ a ++ pat ++ b) :
    splitFirst pat s = none := by
  cases hsf : splitFirst pat s with
  | none => rfl
  | some p =>
    exact absurd (splitFirst_some_decomp pat s p.1 p.2 (by rw [hsf])) (h p.1 p.2)

theorem isPySpace_not_digit (c : Char) (h : isPySpace c = true) : c.isDigit = false := by
  simp only [isPySpace, Bool.or_eq_true, decide_eq_true_eq] at h
  rcases h with ((((h | h) | h) | h) | h) | h <;> subst h <;> rfl

theorem filter_digits_dropWhile (l : Str) :
    (l.dropWhile isPySpace).filter Char.isDigit = l.filter Char.isDigit := by
  induction l with
  | nil => rfl
  | cons c cs ih =>
    by_cases h : isPySpace c = true
    · rw [List.dropWhile_cons_of_pos h, ih, List.filter_cons_of_neg]
      simp [isPySpace_not_digit c h]
    · rw [List.dropWhile_cons_of_neg h]

theorem filter_digits_pyStrip (s : Str) :
    (pyStrip s).filter Char.isDigit = s.filter Char.isDigit := by
  unfold pyStrip
  rw [List.filter_reverse, filter_digits_dropWhile, List.filter_reverse,
    List.reverse_reverse, filter_digits_dropWhile]

/-! ### Per-gate decomposition of the gate loop (for claim C6) -/

/-- The failure reasons a single containment target contributes. -/
def missTarget (name response : Str) (t : Str) : Option Str :=
  if containsSub (lowerStr t) (lowerStr response) then none
  else some (name ++ strOf ": Missing \x27" ++ t ++ strOf "\x27")

/-- The failure reason a single forbidden term contributes. -/
def foundTerm (name response : Str) (t : Str) : Option Str :=
  if containsSub (lowerStr t) (lowerStr response) then
    some (name ++ strOf ": Forbidden term \x27" ++ t ++ strOf "\x27 found")
  else none

/-- The failure reasons one gate contributes, independently of the
running score (or the exception it raises). -/
def gateRes (response : Str) (rjson : JsonVal) (jvalid : Bool) (gate : Gate) :
    Except Unit (List Str) :=
  if gate.type = GateType.json_schema_validate then
    if jvalid = false then
      Except.ok [gate.name ++ strOf ": Output was not valid JSON."]
    else
      (missingFields rjson gate.params.required_fields).map (fun missing =>
        if missing.isEmpty then []
        else [gate.name ++ strOf ": Missing keys " ++ pyReprList missing])
  else if isContainmentType gate.type then
    Except.ok ((collectTargets gate.params).filterMap (missTarget gate.name response))
  else if gate.type = GateType.forbidden_terms then
    Except.ok (gate.params.terms.filterMap (foundTerm gate.name response))
  else if gate.type = GateType.citation_check then
    if gate.params.must_include_any_of.any (fun f => containsSub f response) then
      Except.ok []
    else
      Except.ok [gate.name ++ strOf ": No citation from " ++
        pyReprList gate.params.must_include_any_of]
  else Except.ok []

theorem foldl_missTarget (name response : Str) :
    ∀ (ts : List Str) (sc : Score),
      ts.foldl
        (fun sc t =>
          if containsSub (lowerStr t) (lowerStr response) then sc
          else ⟨false, sc.failed_reasons ++
            [name ++ strOf ": Missing \x27" ++ t ++ strOf "\x27"]⟩)
        sc
      = ⟨sc.passed && (ts.filterMap (missTarget name response)).isEmpty,
         sc.failed_reasons ++ ts.filterMap (missTarget name response)⟩ := by
  intro ts
  induction ts with
  | nil => intro sc; simp
  | cons t ts ih =>
    intro sc
    by_cases h : containsSub (lowerStr t) (lowerStr response) = true
    · rw [List.foldl_cons, if_pos h, ih]
      have hmt : missTarget name response t = none := by rw [missTarget, if_pos h]
      simp [List.filterMap_cons, hmt]
    · rw [List.foldl_cons, if_neg h, ih]
      have hmt : missTarget name response t =
          some (name ++ strOf ": Missing \x27" ++ t ++ strOf "\x27") := by
        rw [missTarget, if_neg h]
      simp [List.filterMap_cons, hmt]

theorem foldl_foundTerm (name response : Str) :
    ∀ (ts : List Str) (sc : Score),
      ts.foldl
        (fun sc t =>
          if containsSub (lowerStr t) (lowerStr response) then
            ⟨false, sc.failed_reasons ++
              [name ++ strOf ": Forbidden term \x27" ++ t ++ strOf "\x27 found"]⟩
          else sc)
        sc
      = ⟨sc.passed && (ts.filterMap (foundTerm name response)).isEmpty,
         sc.failed_reasons ++ ts.filterMap (foundTerm name response)⟩ := by
  intro ts
  induction ts with
  | nil => intro sc; simp
  | cons t ts ih =>
    intro sc
    by_cases h : containsSub (lowerStr t) (lowerStr response) = true
    · rw [List.foldl_cons, if_pos h, ih]
      have hmt : foundTerm name response t =
          some (name ++ strOf ": Forbidden term \x27" ++ t ++ strOf "\x27 found") := by
        rw [foundTerm, if_pos h]
      simp [List.filterMap_cons, hmt]
    · rw [List.foldl_cons, if_neg h, ih]
      have hmt : foundTerm name response t = none := by rw [foundTerm, if_neg h]
      simp [List.filterMap_cons, hmt]

theorem processGate_eq (r : Str) (rj : JsonVal) (jv : Bool) (sc : Score) (g : Gate) :
    processGate r rj jv sc g = (gateRes r rj jv g).map
      (fun rs => ⟨sc.passed && rs.isEmpty, sc.failed_reasons ++ rs⟩) := by
  unfold processGate gateRes
  by_cases hjs : g.type = GateType.json_schema_validate
  · rw [if_pos hjs, if_pos hjs]
    by_cases hv : jv = false
    · rw [if_pos hv, if_pos hv]; simp [Except.map]
    · rw [if_neg hv, if_neg hv]
      cases hmf : missingFields rj g.params.required_fields with
      | error e => rfl
      | ok missing =>
        by_cases hm : missing.isEmpty = true
        · simp [Except.map, hm]
        · simp [Except.map, hm]
  · rw [if_neg hjs, if_neg hjs]
    by_cases hct : isContainmentType g.type = true
    · rw [if_pos hct, if_pos hct, foldl_missTarget]
      rfl
    · rw [if_neg hct, if_neg hct]
      by_cases hft : g.type = GateType.forbidden_terms
      · rw [if_pos hft, if_pos hft, foldl_foundTerm]
        rfl
      · rw [if_neg hft, if_neg hft]
        by_cases hcc : g.type = GateType.citation_check
        · rw [if_pos hcc, if_pos hcc]
          by_cases hany : g.params.must_include_any_of.any (fun f => containsSub f r) = true
          · rw [if_pos hany, if_pos hany]; simp [Except.map]
          · rw [if_neg hany, if_neg hany]; simp [Except.map]
        · rw [if_neg hcc, if_neg hcc]; simp [Except.map]

/-- Whether a gate raises when processed (depends only on the gate and
the extracted JSON, never on the running score). -/
def isErrGate (r : Str) (rj : JsonVal) (jv : Bool) (g : Gate) : Bool :=
  match gateRes r rj jv g with
  | Except.error _ => true
  | Except.ok _ => false

/-- The reasons a non-raising gate contributes. -/
def gateResOk (r : Str) (rj : JsonVal) (jv : Bool) (g : Gate) : List Str :=
  match gateRes r rj jv g with
  | Except.ok rs => rs
  | Except.error _ => []

def joinAll {α : Type} : List (List α) → List α
  | [] => []
  | x :: xs => x ++ joinAll xs

theorem isEmpty_append {α : Type} (l l' : List α) :
    (l ++ l').isEmpty = (l.isEmpty && l'.isEmpty) := by
  cases l <;> simp

theorem runGates_spec (r : Str) (rj : JsonVal) (jv : Bool) :
    ∀ (gates : List Gate) (sc : Score),
      runGates r rj jv sc gates =
        if gates.any (isErrGate r rj jv) = true then Except.error ()
        else
          Except.ok
            ⟨sc.passed && (joinAll (gates.map (gateResOk r rj jv))).isEmpty,
             sc.failed_reasons ++ joinAll (gates.map (gateResOk r rj jv))⟩ := by
  intro gates
  induction gates with
  | nil =>
    intro sc
    simp [runGates, joinAll]
  | cons g gs ih =>
    intro sc
    rw [runGates, processGate_eq]
    cases hgr : gateRes r rj jv g with
    | error e =>
      have hie : isErrGate r rj jv g = true := by simp [isErrGate, hgr]
      simp [Except.map, List.any_cons, hie]
    | ok rs =>
      have hie : isErrGate r rj jv g = false := by simp [isErrGate, hgr]
      have hok : gateResOk r rj jv g = rs := by simp [gateResOk, hgr]
      simp only [Except.map]
      rw [ih]
      by_cases hae : gs.any (isErrGate r rj jv) = true
      · simp [List.any_cons, hie, hae]
      · simp only [List.any_cons, hie, hae, Bool.false_or, if_neg hae,
          List.map_cons, joinAll, hok]
        simp [isEmpty_append, Bool.and_assoc, List.append_assoc]

theorem perm_any {α : Type} (f : α → Bool) {l₁ l₂ : List α} (h : l₁.Perm l₂) :
    l₁.any f = l₂.any f := by
  cases ha : l₁.any f with
  | true =>
    obtain ⟨x, hx, hfx⟩ := List.any_eq_true.mp ha
    exact (List.any_eq_true.mpr ⟨x, (h.mem_iff).mp hx, hfx⟩).symm
  | false =>
    cases hb : l₂.any f with
    | false => rfl
    | true =>
      obtain ⟨x, hx, hfx⟩ := List.any_eq_true.mp hb
      have h1 : l₁.any f = true := List.any_eq_true.mpr ⟨x, (h.mem_iff).mpr hx, hfx⟩
      rw [ha] at h1
      exact absurd h1 (by simp)

theorem joinAll_perm {α : Type} :
    ∀ {l₁ l₂ : List (List α)}, l₁.Perm l₂ → (joinAll l₁).Perm (joinAll l₂) := by
  intro l₁ l₂ h
  induction h with
  | nil => exact List.Perm.refl _
  | cons x _ ih => exact ih.append_left x
  | swap x y l =>
    show (y ++ (x ++ joinAll l)).Perm (x ++ (y ++ joinAll l))
    rw [← List.append_assoc, ← List.append_assoc]
    exact (List.perm_append_comm).append_right _
  | trans _ _ ih1 ih2 => exact ih1.trans ih2

theorem perm_isEmpty {α : Type} {l l' : List α} (h : l.Perm l') :
    l.isEmpty = l'.isEmpty := by
  cases l with
  | nil =>
    have : l' = [] := h.symm.eq_nil
    subst this
    rfl
  | cons a t =>
    cases l' with
    | nil => exact absurd h.eq_nil (by simp)
    | cons b u => rfl

theorem evaluate_single_gate (r : Str) (g : Gate) :
    evaluate_hard_gates r (HardGates.canonical [g]) =
      (gateRes r (extract_json r).1 (extract_json r).2 g).map
        (fun rs => ⟨rs.isEmpty, rs⟩) := by
  unfold evaluate_hard_gates normalizeGates
  rw [runGates, processGate_eq]
  cases hgr : gateRes r (extract_json r).1 (extract_json r).2 g with
  | error e => rfl
  | ok rs => simp [Except.map, runGates]

/-! ## Claim theorems -/

/-- Claim C1, counterexample: on the judge reply "4 out of 5" the code
returns 45 (the concatenation of all digit characters), while the first
maximal run of digit characters is "4"; so `grade` does not return the
integer value of the first maximal digit run. -/
theorem grade_first_digit_run_counterexample :
    grade_quality [] [] [] (fun _ => Except.ok (strOf "4 out of 5")) = 45 ∧
    specFirstDigitRun (strOf "4 out of 5") = 4 ∧ (45 : Nat) ≠ 4 :=
  ⟨rfl, rfl, by decide⟩

/-- Claim C1, amended: for every judge reply containing at least one
digit character, `grade_quality` returns the integer whose decimal
digits are the concatenation of all digit characters of the reply, in
order (so "4 out of 5" yields 45, not 4). -/
theorem grade_quality_concats_all_digits (ti ar ru reply : Str)
    (judge : Str → Except Unit Str)
    (hj : judge (buildJudgePrompt ti ar ru) = Except.ok reply)
    (hd : reply.filter Char.isDigit ≠ []) :
    grade_quality ti ar ru judge = natOfDigits (reply.filter Char.isDigit) := by
  unfold grade_quality
  rw [hj]
  have hp : (pyStrip reply).filter Char.isDigit = reply.filter Char.isDigit :=
    filter_digits_pyStrip reply
  simp [hp, hd]

/-- Witness for the amended claim C1 at the reply "4 out of 5". -/
theorem grade_quality_concats_all_digits_witness :
    grade_quality [] [] [] (fun _ => Except.ok (strOf "4 out of 5")) =
      natOfDigits ((strOf "4 out of 5").filter Char.isDigit) :=
  grade_quality_concats_all_digits [] [] [] (strOf "4 out of 5") _ rfl (by decide)

/-- Claim C4: the gate evaluator is not total.  On the response "5" (a
JSON scalar, so `json_valid = true` with a non-mapping parsed value) and
a `json_schema_validate` gate with a non-empty `required_fields` list,
the key-membership test `f not in response_json` raises a `TypeError`,
modelled as `Except.error ()`. -/
theorem evaluate_hard_gates_raises_on_scalar_json :
    evaluate_hard_gates (strOf "5")
      (HardGates.canonical
        [⟨GateType.json_schema_validate, strOf "shape",
          ⟨none, none, none, none, none, none, none, [], [strOf "id"], []⟩⟩]) =
      Except.error () := by rfl

/-- Claim C5: a `forbidden_terms` gate with the single term `t` fails
with exactly the reason `"{name}: Forbidden term '{t}' found"` iff `t`
occurs case-insensitively in the response, and passes with no reasons
otherwise. -/
theorem forbidden_terms_single_term_iff (r n t : Str) :
    evaluate_hard_gates r
      (HardGates.canonical
        [⟨GateType.forbidden_terms, n,
          ⟨none, none, none, none, none, none, none, [t], [], []⟩⟩]) =
      Except.ok
        (if lowerStr t <:+: lowerStr r then
          ⟨false, [n ++ strOf ": Forbidden term \x27" ++ t ++ strOf "\x27 found"]⟩
         else ⟨true, []⟩) := by
  rw [evaluate_single_gate]
  by_cases h : lowerStr t <:+: lowerStr r
  · have hcs : containsSub (lowerStr t) (lowerStr r) = true :=
      (containsSub_iff_substring _ _).mpr h
    simp [gateRes, isContainmentType, foundTerm, hcs, h, Except.map]
  · have hcs : containsSub (lowerStr t) (lowerStr r) = false := by
      cases hc2 : containsSub (lowerStr t) (lowerStr r) with
      | false => rfl
      | true => exact absurd ((containsSub_iff_substring _ _).mp hc2) h
    simp [gateRes, isContainmentType, foundTerm, hcs, h, Except.map]

/-- Claim C7: a `citation_check` gate passes iff some string of
`params.must_include_any_of` occurs case-sensitively in the response;
otherwise (in particular for an empty list) it adds exactly the reason
`"{name}: No citation from {files}"`. -/
theorem citation_check_any_substring (r n : Str) (files : List Str) :
    evaluate_hard_gates r
      (HardGates.canonical
        [⟨GateType.citation_check, n,
          ⟨none, none, none, none, none, none, none, [], [], files⟩⟩]) =
      Except.ok
        (if ∃ f ∈ files, f <:+: r then ⟨true, []⟩
         else ⟨false, [n ++ strOf ": No citation from " ++ pyReprList files]⟩) := by
  rw [evaluate_single_gate]
  by_cases h : ∃ f ∈ files, f <:+: r
  · have hany : files.any (fun f => containsSub f r) = true := by
      obtain ⟨f, hf, hinf⟩ := h
      exact List.any_eq_true.mpr ⟨f, hf, (containsSub_iff_substring _ _).mpr hinf⟩
    simp [gateRes, isContainmentType, hany, h, Except.map]
  · have hany : files.any (fun f => containsSub f r) = false := by
      cases ha : files.any (fun f => containsSub f r) with
      | false => rfl
      | true =>
        obtain ⟨f, hf, hc⟩ := List.any_eq_true.mp ha
        exact absurd ⟨f, hf, (containsSub_iff_substring _ _).mp hc⟩ h
    simp [gateRes, isContainmentType, hany, h, Except.map]

/-- Claim C8: whenever the judge invocation raises, or the reply
contains no digit characters, `grade_quality` returns the neutral
default 3 and never propagates the failure. -/
theorem grade_quality_fallback_three (ti ar ru : Str) (judge : Str → Except Unit Str)
    (h : judge (buildJudgePrompt ti ar ru) = Except.error () ∨
      ∃ reply, judge (buildJudgePrompt ti ar ru) = Except.ok reply ∧
        reply.filter Char.isDigit = []) :
    grade_quality ti ar ru judge = 3 := by
  unfold grade_quality
  rcases h with h | ⟨reply, hj, hd⟩
  · rw [h]
  · rw [hj]
    have hp : (pyStrip reply).filter Char.isDigit = [] := by
      rw [filter_digits_pyStrip, hd]
    simp [hp]

/-- Witness for claim C8 at a raising judge. -/
theorem grade_quality_fallback_three_witness :
    grade_quality [] [] [] (fun _ => Except.error ()) = 3 :=
  grade_quality_fallback_three [] [] [] _ (Or.inl rfl)

/-- Claim C9: any rule set that normalizes to zero gates evaluates to
`passed = true` with no reasons, for every response text. -/
theorem evaluate_empty_gates_passes (r : Str) (rules : HardGates)
    (h : normalizeGates rules = []) :
    evaluate_hard_gates r rules = Except.ok ⟨true, []⟩ := by
  unfold evaluate_hard_gates
  rw [h]
  rfl

/-- Witness for claim C9: the unrecognized-shape legacy rule set (no
keys) on the empty response. -/
theorem evaluate_empty_gates_passes_witness :
    normalizeGates (HardGates.legacy none none) = [] ∧
    evaluate_hard_gates [] (HardGates.legacy none none) = Except.ok ⟨true, []⟩ :=
  ⟨rfl, evaluate_empty_gates_passes [] (HardGates.legacy none none) rfl⟩

/-- Claim C10: a containment-type gate whose params hold none of the
seven recognized keys collects zero targets and passes silently on any
response. -/
theorem containment_gate_without_keys_passes (r n : Str) (ty : GateType) (p : Params)
    (hty : isContainmentType ty = true)
    (h1 : p.expected_account_id = none) (h2 : p.expected_contact_id = none)
    (h3 : p.expected_email = none) (h4 : p.expected_deal_id = none)
    (h5 : p.expected_value = none) (h6 : p.expected = none) (h7 : p.patterns = none) :
    collectTargets p = [] ∧
    evaluate_hard_gates r (HardGates.canonical [⟨ty, n, p⟩]) = Except.ok ⟨true, []⟩ := by
  have hct : collectTargets p = [] := by
    simp [collectTargets, h1, h2, h3, h4, h5, h6, h7, pvalToStrings]
  refine ⟨hct, ?_⟩
  rw [evaluate_single_gate]
  have hne1 : ¬ ty = GateType.json_schema_validate := by
    intro he
    subst he
    simp [isContainmentType] at hty
  simp [gateRes, hne1, hty, hct, Except.map]

/-- Witness for claim C10: a `regex_any` gate with empty params on a
non-empty response. -/
theorem containment_gate_without_keys_passes_witness :
    collectTargets emptyParams = [] ∧
    evaluate_hard_gates (strOf "anything")
      (HardGates.canonical [⟨GateType.regex_any, strOf "g", emptyParams⟩]) =
      Except.ok ⟨true, []⟩ :=
  containment_gate_without_keys_passes (strOf "anything") (strOf "g")
    GateType.regex_any emptyParams rfl rfl rfl rfl rfl rfl rfl rfl

/-- Claim C3, counterexample: a legacy rule set whose `must_contain` key
is present with an *empty* list still produces the
`legacy_must_contain` gate, while the claim says no gate is produced
when the list is empty. -/
theorem normalize_empty_must_contain_counterexample :
    normalizeGates (HardGates.legacy (some []) none) =
      [⟨GateType.crm_contact_match, strOf "legacy_must_contain",
        ⟨none, none, none, none, none, some (PVal.list []), none, [], [], []⟩⟩] ∧
    normalizeGates (HardGates.legacy (some []) none) ≠ [] :=
  ⟨rfl, by simp [normalizeGates]⟩

/-- Claim C3, amended: normalization of a legacy rule set produces
exactly one `crm_contact_match` gate named `legacy_must_contain` with
`params.expected` the `must_contain` list iff the `must_contain` key is
present (even with an empty list), and exactly one `forbidden_terms`
gate named `legacy_forbidden` with `params.terms` the `forbidden_terms`
list iff the `forbidden_terms` key is present; key presence, not list
non-emptiness, decides. -/
theorem normalize_legacy_gates_by_key_presence (mc ft : Option (List Str)) :
    ((normalizeGates (HardGates.legacy mc ft)).filter
        (fun g => g.name == strOf "legacy_must_contain") =
      match mc with
      | some l => [⟨GateType.crm_contact_match, strOf "legacy_must_contain",
          ⟨none, none, none, none, none, some (PVal.list l), none, [], [], []⟩⟩]
      | none => []) ∧
    ((normalizeGates (HardGates.legacy mc ft)).filter
        (fun g => g.name == strOf "legacy_forbidden") =
      match ft with
      | some l => [⟨GateType.forbidden_terms, strOf "legacy_forbidden",
          ⟨none, none, none, none, none, none, none, l, [], []⟩⟩]
      | none => []) := by
  cases mc <;> cases ft <;> exact ⟨rfl, rfl⟩

/-- Claim C2, counterexample: the response `"x```json\n1\n```"` does not
parse as JSON as a whole and contains no line consisting exactly of
`` ```json `` (its lines are `"x```json"`, `"1"`, `` "```" ``), yet
extraction succeeds with the parsed value 1 and `is_valid = true`,
because the regex `` ```json\n(.*?)\n``` `` is not anchored to line
boundaries. -/
theorem extract_json_fence_counterexample :
    loads (strOf "x```json\n1\n```") = none ∧
    extract_json (strOf "x```json\n1\n```") = (JsonVal.num ['1'], true) ∧
    claimFenceLinePattern (strOf "x```json\n1\n```") = false :=
  ⟨rfl, rfl, by decide⟩

/-- Claim C2, amended: for a response whose full text does not parse as
JSON, the fenced-block search is an unanchored substring search: it
succeeds iff the text contains `` ```json\n `` later followed by
`` \n``` `` (no own-line requirement); the inner content is the text
between the *first* such occurrences, and it is parsed as JSON — parse
success gives `(value, true)`, failure gives `({}, false)`; if no such
pair of substrings exists the result is `({}, false)`. -/
theorem extract_json_fence_unanchored (s : Str) (hfull : loads s = none) :
    ((∀ a inner b : Str, s ≠ a ++ fenceOpen ++ inner ++ fenceClose ++ b) →
      extract_json s = (JsonVal.obj [], false)) ∧
    (∀ a inner b : Str,
      FirstOccurAt fenceOpen s a (inner ++ fenceClose ++ b) →
      FirstOccurAt fenceClose (inner ++ fenceClose ++ b) inner b →
      extract_json s =
        (match loads inner with
         | some v => (v, true)
         | none => (JsonVal.obj [], false))) := by
  constructor
  · intro hno
    have hrs : reSearchFence s = none := by
      unfold reSearchFence
      cases hsf : splitFirst fenceOpen s with
      | none => rfl
      | some p =>
        obtain ⟨p1, p2⟩ := p
        have hd1 := splitFirst_some_decomp fenceOpen s p1 p2 (by rw [hsf])
        cases hsf2 : splitFirst fenceClose p2 with
        | none => simp [hsf2]
        | some q =>
          have hd2 := splitFirst_some_decomp fenceClose p2 q.1 q.2 (by rw [hsf2])
          exfalso
          apply hno p1 q.1 q.2
          rw [hd1, hd2]
          simp [List.append_assoc]
    simp [extract_json, hfull, hrs]
  · intro a inner b h1 h2
    have e1 : splitFirst fenceOpen s = some (a, inner ++ fenceClose ++ b) :=
      splitFirst_of_firstOccur _ _ _ _ h1
    have e2 : splitFirst fenceClose (inner ++ fenceClose ++ b) = some (inner, b) :=
      splitFirst_of_firstOccur _ _ _ _ h2
    have e2' : splitFirst fenceClose (inner ++ (fenceClose ++ b)) = some (inner, b) := by
      rw [← List.append_assoc]
      exact e2
    have hrs : reSearchFence s = some inner := by
      unfold reSearchFence
      rw [e1]
      simp [e2']
    simp [extract_json, hfull, hrs]

/-- Witness for the amended claim C2: the fence of `"x```json\n1\n```"`
starts mid-line at offset 1, the extracted inner content is `"1"`, and
extraction returns its parsed value with `is_valid = true`. -/
theorem extract_json_fence_unanchored_witness :
    extract_json (strOf "x```json\n1\n```") =
      (match loads ['1'] with
       | some v => (v, true)
       | none => (JsonVal.obj [], false)) :=
  (extract_json_fence_unanchored (strOf "x```json\n1\n```") rfl).2
    (strOf "x") ['1'] [] ⟨by decide, by decide⟩ ⟨by decide, by decide⟩

/-- Claim C6: gate evaluation is order-independent up to the ordering of
reasons: permuting the gate list preserves the `passed` verdict and the
multiset of failure reasons whenever both evaluations return a verdict. -/
theorem evaluate_hard_gates_perm_invariant (r : Str) (g g' : List Gate)
    (hperm : g.Perm g') (v v' : Score)
    (h1 : evaluate_hard_gates r (HardGates.canonical g) = Except.ok v)
    (h2 : evaluate_hard_gates r (HardGates.canonical g') = Except.ok v') :
    v.passed = v'.passed ∧
    (↑v.failed_reasons : Multiset Str) = ↑v'.failed_reasons := by
  unfold evaluate_hard_gates normalizeGates at h1 h2
  rw [runGates_spec] at h1 h2
  by_cases he : g.any (isErrGate r (extract_json r).1 (extract_json r).2) = true
  · rw [if_pos he] at h1
    exact absurd h1 (by simp)
  · have he' :
        ¬ g'.any (isErrGate r (extract_json r).1 (extract_json r).2) = true := by
      rw [← perm_any _ hperm]
      exact he
    rw [if_neg he] at h1
    rw [if_neg he'] at h2
    have hv := Except.ok.inj h1
    have hv' := Except.ok.inj h2
    have hjoin :
        (joinAll (g.map (gateResOk r (extract_json r).1 (extract_json r).2))).Perm
          (joinAll (g'.map (gateResOk r (extract_json r).1 (extract_json r).2))) :=
      joinAll_perm (hperm.map _)
    constructor
    · rw [← hv, ← hv']
      simp only [Bool.true_and]
      exact perm_isEmpty hjoin
    · rw [← hv, ← hv']
      simp only [List.nil_append]
      exact Multiset.coe_eq_coe.mpr hjoin

/-- Witness for claim C6: swapping a failing `forbidden_terms` gate and
a failing `citation_check` gate reverses the reason order but preserves
the verdict and the reason multiset. -/
theorem evaluate_hard_gates_perm_invariant_witness :
    (Score.mk false [strOf "f: Forbidden term \x27a\x27 found",
      strOf "c: No citation from []"]).passed =
      (Score.mk false [strOf "c: No citation from []",
        strOf "f: Forbidden term \x27a\x27 found"]).passed ∧
    (↑(Score.mk false [strOf "f: Forbidden term \x27a\x27 found",
        strOf "c: No citation from []"]).failed_reasons : Multiset Str) =
      ↑(Score.mk false [strOf "c: No citation from []",
        strOf "f: Forbidden term \x27a\x27 found"]).failed_reasons :=
  evaluate_hard_gates_perm_invariant (strOf "a")
    [⟨GateType.forbidden_terms, strOf "f",
       ⟨none, none, none, none, none, none, none, [strOf "a"], [], []⟩⟩,
     ⟨GateType.citation_check, strOf "c",
       ⟨none, none, none, none, none, none, none, [], [], []⟩⟩]
    [⟨GateType.citation_check, strOf "c",
       ⟨none, none, none, none, none, none, none, [], [], []⟩⟩,
     ⟨GateType.forbidden_terms, strOf "f",
       ⟨none, none, none, none, none, none, none, [strOf "a"], [], []⟩⟩]
    (by decide) _ _ rfl rfl
